import Mathlib

/-!
Shallow embedding of the mm-desktop-versions utility (src/main.go).

The program scans session rows from a database, decodes a JSON
properties blob per row, classifies each session as Desktop / Mobile /
Unclassified, extracts a version string from the browser field, and
tallies counts per (version, OS).  A second mode (doLookup) filters
desktop sessions whose version is older than or equal to a threshold.

External collaborators (SQL driver, JSON decoder, CSV writer, clock)
are modelled as inputs: a row arrives as its raw props text, the result
of JSON decoding (an Option Props), and the device id column.  All the
decision logic of main.go is embedded below, definition by definition.
-/

namespace MMDV

/-- Result of splitting a character list at every occurrence of `c`,
matching the semantics of Go strings.Split with a one-character
separator: the result is never empty, and splitting the empty string
yields one empty segment. -/
def splitChar (c : Char) : List Char → List (List Char)
  | [] => [[]]
  | a :: rest =>
    match splitChar c rest with
    | [] => if a = c then [[], []] else [[a]]
    | h :: t => if a = c then [] :: h :: t else (a :: h) :: t

/-- Go strings.Split for a one-character separator, on Lean strings. -/
def goSplit (s : String) (c : Char) : List String :=
  (splitChar c s.data).map (fun l => String.mk l)

/-- Go strings.Contains: the second string occurs as a contiguous
substring of the first. -/
def containsSubstr (s sub : String) : Bool :=
  decide (List.IsInfix sub.data s.data)

/-- Decimal digit accumulator used by the Atoi model. -/
def parseDigitsAux : Nat → List Char → Option Nat
  | acc, [] => some acc
  | acc, ch :: rest =>
    if ch.isDigit then parseDigitsAux (acc * 10 + (ch.toNat - 48)) rest
    else none

/-- Parse a non-empty run of decimal digits; none on the empty list or
on any non-digit character. -/
def parseDigits : List Char → Option Nat
  | [] => none
  | l => parseDigitsAux 0 l

/-- Model of Go strconv.Atoi (= ParseInt(s, 10, 0) on a 64-bit platform):
optional leading sign, then one or more decimal digits, and the value
must fit in a signed 64-bit integer; otherwise an error is returned. -/
def goAtoi (s : String) : Except String Int :=
  let finish : Bool → List Char → Except String Int := fun neg ds =>
    match parseDigits ds with
    | none => Except.error "invalid syntax"
    | some n =>
      if neg then
        if n ≤ 2 ^ 63 then Except.ok (-(n : Int)) else Except.error "value out of range"
      else
        if n ≤ 2 ^ 63 - 1 then Except.ok (n : Int) else Except.error "value out of range"
  match s.data with
  | '+' :: rest => finish false rest
  | '-' :: rest => finish true rest
  | l => finish false l

/-- Embedding of splitVersion (main.go lines 125-147): split on the dot,
require exactly three components, convert each with Atoi. -/
def splitVersion (version : String) : Except String (Int × Int × Int) :=
  match goSplit version '.' with
  | [a, b, c] => do
    let major ← goAtoi a
    let minor ← goAtoi b
    let patch ← goAtoi c
    Except.ok (major, minor, patch)
  | _ => Except.error "invalid version format"

/-- Embedding of isOlderOrEqual (main.go lines 149-177): compare major,
then minor, then patch. -/
def isOlderOrEqual (version lookupVersion : String) : Except String Bool := do
  let (vMajor, vMinor, vPatch) ← splitVersion version
  let (lvMajor, lvMinor, lvPatch) ← splitVersion lookupVersion
  if vMajor < lvMajor then pure true
  else if vMajor > lvMajor then pure false
  else if vMinor < lvMinor then pure true
  else if vMinor > lvMinor then pure false
  else pure (decide (vPatch ≤ lvPatch))

/-- Decoded session properties (main.go lines 35-40). Field names keep
the Go struct field names. -/
structure Props where
  Browser : String
  OS : String
  IsMobile : String
  DeviceID : String
deriving DecidableEq, Repr

/-- One aggregate entry (main.go lines 42-45). The count is a tally of
events and is never negative in this program, so it is carried as Nat. -/
structure VersionInfo where
  OS : String
  Count : Nat
deriving DecidableEq, Repr

/-- VersionCount (main.go line 47) is a Go map from version string to a
slice of VersionInfo; embedded as an association list with unique keys. -/
abbrev VersionCount := List (String × List VersionInfo)

/-- Go map read: the slice stored under a key, nil/absent read as the
empty slice. -/
def vcGet (m : VersionCount) (k : String) : List VersionInfo :=
  match m.find? (fun e => e.1 == k) with
  | some e => e.2
  | none => []

/-- Go map write: replace the slice stored under a key, inserting the
key if absent. -/
def vcSet : VersionCount → String → List VersionInfo → VersionCount
  | [], k, v => [(k, v)]
  | e :: rest, k, v => if e.1 == k then (k, v) :: rest else e :: vcSet rest k v

/-- The map update performed by the scan loop: append one VersionInfo to
the slice under a key (main.go lines 378-381 and 392-395; the nil check
plus make is absorbed into reading an absent key as the empty slice). -/
def vcAppend (m : VersionCount) (k : String) (info : VersionInfo) : VersionCount :=
  vcSet m k (vcGet m k ++ [info])

/-- Log levels (main.go lines 52-59) are strings in the source. -/
abbrev LogLevel := String

def debugLevel : LogLevel := "DEBUG"

def infoLevel : LogLevel := "INFO"

def warningLevel : LogLevel := "WARNING"

def errorLevel : LogLevel := "ERROR"

/-- One session row as the scan loop sees it: the raw props JSON text,
the outcome of json.Unmarshal on that text (none when the JSON is
malformed; the decoder itself is an external collaborator), and the
device id column of the row. -/
structure Row where
  props : String
  decoded : Option Props
  deviceID : String

/-- The line propData.DeviceID = deviceID (main.go 367 and 244): the
JSON DeviceID field is overwritten by the row column. -/
def overrideDevice (pd : Props) (deviceID : String) : Props :=
  { pd with DeviceID := deviceID }

/-- The mobile predicate (main.go line 369 and 246). It reads the row
device id, which at that point equals the DeviceID field after the
override. -/
def mobilePred (pd : Props) : Bool :=
  pd.IsMobile == "true" || pd.DeviceID != "" || pd.OS == "Android" || pd.OS == "iOS"

/-- The desktop predicate (main.go line 383 and 248): the browser field
contains the literal substring Desktop App. -/
def desktopPred (pd : Props) : Bool :=
  containsSubstr pd.Browser "Desktop App"

/-- Client classes of the spec data model. -/
inductive ClientClass
  | Desktop
  | Mobile
  | Unclassified
deriving DecidableEq, Repr

/-- The classifier, read off the branch structure of the scan loop
(main.go lines 369 and 383): the mobile predicate is tested first, the
desktop predicate only in its else branch, and everything else falls
through. -/
def classify (pd : Props) : ClientClass :=
  if mobilePred pd then ClientClass.Mobile
  else if desktopPred pd then ClientClass.Desktop
  else ClientClass.Unclassified

/-- Mutable state of the processDatabase scan loop: the two aggregate
maps (main.go lines 341-342) plus the list of emitted log records. -/
structure ProcState where
  desktop : VersionCount
  mobile : VersionCount
  log : List (LogLevel × String)

def emptyState : ProcState :=
  { desktop := [], mobile := [], log := [] }

/-- One iteration of the processDatabase row loop (main.go lines
344-398).  Decode failure logs a warning and skips the row (the source
message carries the decoder error text, which is external to this
model).  Mobile rows whose browser splits on the slash into exactly two
segments contribute the part of the second segment before the first
plus sign; the value 0.0 is still aggregated, after a warning naming the
device id and the raw JSON.  Desktop rows with exactly two segments
contribute the second segment verbatim, except that 0.0 is skipped
(with a debug message only in debug mode). -/
def processRow (debugMode : Bool) (st : ProcState) (r : Row) : ProcState :=
  match r.decoded with
  | none =>
    { st with log := st.log ++ [(warningLevel, "Error unmarshalling JSON")] }
  | some pd0 =>
    let pd := overrideDevice pd0 r.deviceID
    if mobilePred pd then
      let parts := goSplit pd.Browser '/'
      if parts.length == 2 then
        let version := (goSplit (parts.getD 1 "") '+').headD ""
        let st1 :=
          if version == "0.0" then
            { st with log := st.log ++
              [(warningLevel,
                "Unrecognised entry - Device ID: " ++ r.deviceID ++
                ", JSON Session: " ++ r.props)] }
          else st
        { st1 with mobile := vcAppend st1.mobile version { OS := pd.OS, Count := 1 } }
      else st
    else if desktopPred pd then
      let parts := goSplit pd.Browser '/'
      if parts.length == 2 then
        let version := parts.getD 1 ""
        if version == "0.0" then
          if debugMode then
            { st with log := st.log ++ [(debugLevel, "Troubleshooting: " ++ r.props)] }
          else st
        else
          { st with desktop := vcAppend st.desktop version { OS := pd.OS, Count := 1 } }
      else st
    else st

/-- The whole row scan of processDatabase, a left fold of the row loop
over the stream of rows. -/
def processRows (debugMode : Bool) (st : ProcState) (rows : List Row) : ProcState :=
  rows.foldl (processRow debugMode) st

/-- Per-key consolidation of aggregateCounts (main.go lines 412-424):
fold the provisional unit entries into a per-OS counter map, then emit
one entry per OS.  The Go map osCount is embedded as an association
list in first-insertion order; the properties claimed of the result do
not depend on that order. -/
def bumpOS (m : List (String × Nat)) (os : String) (cnt : Nat) : List (String × Nat) :=
  match m with
  | [] => [(os, cnt)]
  | e :: rest => if e.1 == os then (e.1, e.2 + cnt) :: rest else e :: bumpOS rest os cnt

def consolidateOS (infos : List VersionInfo) : List VersionInfo :=
  let osCount := infos.foldl (fun m i => bumpOS m i.OS i.Count) []
  osCount.map (fun e => { OS := e.1, Count := e.2 })

/-- aggregateCounts (main.go lines 412-424): consolidate the slice under
every key of the map. -/
def aggregateCounts (vc : VersionCount) : VersionCount :=
  vc.map (fun e => (e.1, consolidateOS e.2))

/-- processDatabase (main.go lines 321-410) restricted to its decision
logic: scan the rows, then consolidate both maps. Returns the desktop
map, the mobile map, and the log. -/
def processDatabase (debugMode : Bool) (rows : List Row) :
    VersionCount × VersionCount × List (LogLevel × String) :=
  let st := processRows debugMode emptyState rows
  (aggregateCounts st.desktop, aggregateCounts st.mobile, st.log)

/-- Outcome of one iteration of the doLookup row loop for one session
row: whether the row proceeds to the user join and CSV output (the
processRow flag of main.go line 250 at the point of the check on line
268), the extracted version, and the log records emitted. -/
structure LookupRowResult where
  processRow : Bool
  version : String
  log : List (LogLevel × String)
deriving DecidableEq, Repr

/-- One iteration of the doLookup row loop (main.go lines 220-316),
up to the user join: decode failure warns and skips; mobile rows are
skipped (debug message only); desktop rows with exactly two slash
segments and version 0.0 are skipped; a version comparison error warns
and forces inclusion (fail-open); otherwise the comparison result
decides inclusion.  A desktop row whose browser does not split into
exactly two segments leaves the initial processRow = false and version
empty with no log. -/
def doLookupRow (debugMode : Bool) (lookupVersion : String) (r : Row) : LookupRowResult :=
  match r.decoded with
  | none =>
    { processRow := false, version := "",
      log := [(warningLevel, "Error unmarshalling JSON")] }
  | some pd0 =>
    let pd := overrideDevice pd0 r.deviceID
    if mobilePred pd then
      { processRow := false, version := "",
        log := if debugMode then [(debugLevel, "Mobile device.  Skipping for lookup.")] else [] }
    else if desktopPred pd then
      let parts := goSplit pd.Browser '/'
      if parts.length == 2 then
        let version := parts.getD 1 ""
        if version == "0.0" then
          { processRow := false, version := version,
            log := if debugMode then [(debugLevel, "Troubleshooting: " ++ r.props)] else [] }
        else
          match isOlderOrEqual version lookupVersion with
          | Except.ok b =>
            { processRow := b, version := version, log := [] }
          | Except.error _ =>
            { processRow := true, version := version,
              log := [(warningLevel, "Unable to parse version string: " ++ version)] }
      else
        { processRow := false, version := "", log := [] }
    else
      { processRow := false, version := "", log := [] }

/-- Result of connectDatabase (main.go lines 100-123) as seen by main:
which driver was opened, if any, and the returned error.  sql.Open for
a registered driver with a well-formed DSN does not fail, so the two
supported branches return no error.  In the unsupported branch the
source logs an error message but returns the still-nil local err, so
the returned error is none there as well. -/
structure ConnectResult where
  db : Option String
  err : Option String
deriving DecidableEq, Repr

def connectDatabase (dbType : String) : ConnectResult :=
  if dbType == "postgresql" then { db := some "postgres", err := none }
  else if dbType == "mysql" then { db := some "mysql", err := none }
  else { db := none, err := none }

/-- The connect step of main (main.go lines 510-514): the process exits
with code 3 exactly when connectDatabase returns a non-nil error;
otherwise none, meaning execution continues into the database work. -/
def mainExitAfterConnect (dbType : String) : Option Nat :=
  if (connectDatabase dbType).err.isSome then some 3 else none

/-- Decidable equality for Except values, so that concrete runs of the
embedded fallible functions can be evaluated inside proofs. -/
instance exceptDecEq {ε α : Type} [DecidableEq ε] [DecidableEq α] :
    DecidableEq (Except ε α) := fun x y =>
  match x, y with
  | Except.ok a, Except.ok b =>
    if h : a = b then Decidable.isTrue (by rw [h])
    else Decidable.isFalse (by intro he; cases he; exact h rfl)
  | Except.error a, Except.error b =>
    if h : a = b then Decidable.isTrue (by rw [h])
    else Decidable.isFalse (by intro he; cases he; exact h rfl)
  | Except.ok _, Except.error _ => Decidable.isFalse (by intro he; cases he)
  | Except.error _, Except.ok _ => Decidable.isFalse (by intro he; cases he)

/-- Every aggregate entry in the map is a provisional unit event. -/
def allOnes (vc : VersionCount) : Prop :=
  ∀ kv ∈ vc, ∀ i ∈ kv.2, i.Count = 1

/-- A mobile-classified session whose browser has three slash segments. -/
def mobileThreeSegRow : Row :=
  { props := "RAWJSON1",
    decoded := some
      { Browser := "Mattermost/5.2.1/extra", OS := "Android",
        IsMobile := "true", DeviceID := "" },
    deviceID := "" }

/-- A mobile-classified session reporting the placeholder version 0.0. -/
def mobileZeroRow : Row :=
  { props := "RAWJSONZERO",
    decoded := some
      { Browser := "Mobile App/0.0", OS := "iOS",
        IsMobile := "true", DeviceID := "dev9" },
    deviceID := "dev9" }

/-- A desktop session whose version carries a build metadata suffix. -/
def desktopPlusRow : Row :=
  { props := "RAWJSON2",
    decoded := some
      { Browser := "Mattermost Desktop App/5.5.1+build7", OS := "Windows",
        IsMobile := "", DeviceID := "" },
    deviceID := "" }

/-- The same desktop session without the build metadata suffix. -/
def desktopPlainRow : Row :=
  { props := "RAWJSON3",
    decoded := some
      { Browser := "Mattermost Desktop App/5.5.1", OS := "Windows",
        IsMobile := "", DeviceID := "" },
    deviceID := "" }

/-- A desktop session at version 5.5.0 on Windows. -/
def desktopRow550 : Row :=
  { props := "RAWJSON4",
    decoded := some
      { Browser := "Mattermost Desktop App/5.5.0", OS := "Windows",
        IsMobile := "", DeviceID := "" },
    deviceID := "" }

/-- A desktop session whose version 5.5 has only two dot components. -/
def desktopRowTwoComp : Row :=
  { props := "RAWJSON5",
    decoded := some
      { Browser := "Mattermost Desktop App/5.5", OS := "Windows",
        IsMobile := "", DeviceID := "" },
    deviceID := "" }

/-- A desktop session whose browser has no slash at all. -/
def desktopRowNoSlash : Row :=
  { props := "RAWJSON6",
    decoded := some
      { Browser := "Mattermost Desktop App 5.5.0", OS := "Windows",
        IsMobile := "", DeviceID := "" },
    deviceID := "" }

/-- A mobile session with a build suffix on the version. -/
def mobilePlusRow : Row :=
  { props := "RAWJSON7",
    decoded := some
      { Browser := "Mattermost Mobile/2.19.0+codepush3", OS := "iOS",
        IsMobile := "true", DeviceID := "devA" },
    deviceID := "devA" }

/-- The same mobile session without the build suffix. -/
def mobilePlainRow : Row :=
  { props := "RAWJSON8",
    decoded := some
      { Browser := "Mattermost Mobile/2.19.0", OS := "Android",
        IsMobile := "true", DeviceID := "devB" },
    deviceID := "devB" }

/-- A row whose props text is not valid JSON: the decoder yields none. -/
def malformedRow : Row :=
  { props := "NOTJSON",
    decoded := none,
    deviceID := "" }

end MMDV

namespace MMDV

/-! ### Helper lemmas -/

theorem splitChar_ne_nil (c : Char) (l : List Char) : splitChar c l ≠ [] := by
  cases l with
  | nil => simp [splitChar]
  | cons a rest =>
    rw [splitChar]
    rcases splitChar c rest with _ | ⟨x, t⟩ <;> dsimp only <;> split <;> simp

theorem splitChar_not_mem (c : Char) (l : List Char) (h : c ∉ l) :
    splitChar c l = [l] := by
  induction l with
  | nil => simp [splitChar]
  | cons a rest ih =>
    simp only [List.mem_cons, not_or] at h
    rw [splitChar, ih h.2]
    simp [Ne.symm h.1]

theorem splitChar_append (c : Char) (l1 l2 : List Char) (h : c ∉ l1) :
    splitChar c (l1 ++ c :: l2) = l1 :: splitChar c l2 := by
  induction l1 with
  | nil =>
    simp only [List.nil_append]
    rw [splitChar]
    cases hs : splitChar c l2 with
    | nil => exact absurd hs (splitChar_ne_nil c l2)
    | cons x t => simp
  | cons a rest ih =>
    simp only [List.mem_cons, not_or] at h
    simp only [List.cons_append]
    rw [splitChar, ih h.2]
    simp [Ne.symm h.1]

theorem isOlderOrEqual_ok (v w : String) (a b c d e f : Int)
    (h1 : splitVersion v = Except.ok (a, b, c))
    (h2 : splitVersion w = Except.ok (d, e, f)) :
    isOlderOrEqual v w =
      Except.ok (decide (a < d ∨ (a = d ∧ (b < e ∨ (b = e ∧ c ≤ f))))) := by
  unfold isOlderOrEqual
  rw [h1, h2]
  show (if a < d then (pure true : Except String Bool)
    else if a > d then pure false
    else if b < e then pure true
    else if b > e then pure false
    else pure (decide (c ≤ f))) = _
  split_ifs with g1 g2 g3 g4
  · rw [decide_eq_true (show a < d ∨ (a = d ∧ (b < e ∨ (b = e ∧ c ≤ f))) by omega)]
    rfl
  · rw [decide_eq_false (show ¬(a < d ∨ (a = d ∧ (b < e ∨ (b = e ∧ c ≤ f)))) by omega)]
    rfl
  · rw [decide_eq_true (show a < d ∨ (a = d ∧ (b < e ∨ (b = e ∧ c ≤ f))) by omega)]
    rfl
  · rw [decide_eq_false (show ¬(a < d ∨ (a = d ∧ (b < e ∨ (b = e ∧ c ≤ f)))) by omega)]
    rfl
  · show Except.ok (decide (c ≤ f)) = Except.ok _
    congr 1
    rw [decide_eq_decide]
    omega

theorem isOlderOrEqual_err_left (v w msg : String)
    (h : splitVersion v = Except.error msg) :
    isOlderOrEqual v w = Except.error msg := by
  unfold isOlderOrEqual
  rw [h]
  rfl

theorem isOlderOrEqual_err_right (v w msg : String) (t : Int × Int × Int)
    (h1 : splitVersion v = Except.ok t)
    (h2 : splitVersion w = Except.error msg) :
    isOlderOrEqual v w = Except.error msg := by
  obtain ⟨a, b, c⟩ := t
  unfold isOlderOrEqual
  rw [h1, h2]
  rfl

/-! ### Claim theorems -/

/-- C2: the spec says an unrecognized database type is a fatal
configuration error, with connectDatabase returning a non-nil error and
the process exiting non-zero before any database work.  The source
contradicts this: in the unsupported branch it returns the still-nil
local err, so the error is none, main does not exit at the connect
check, and execution continues with a nil database handle. -/
theorem connectDatabase_unsupported_type_returns_nil_error :
    connectDatabase "sqlite" = { db := none, err := none } ∧
    mainExitAfterConnect "sqlite" = none ∧
    ("sqlite" == "postgresql") = false ∧ ("sqlite" == "mysql") = false := by
  decide

/-- C5: isOlderOrEqual on two versions that each split into three
integer components returns exactly the lexicographic major-minor-patch
comparison; a component failure of either argument propagates as an
error; and the four concrete contract examples hold, with a
two-component argument failing with the format error. -/
theorem isOlderOrEqual_spec :
    (∀ v w : String, ∀ a b c d e f : Int,
      splitVersion v = Except.ok (a, b, c) →
      splitVersion w = Except.ok (d, e, f) →
      (∃ t, isOlderOrEqual v w = Except.ok t) ∧
      (isOlderOrEqual v w = Except.ok true ↔
        (a < d ∨ (a = d ∧ (b < e ∨ (b = e ∧ c ≤ f)))))) ∧
    (∀ v w msg : String, splitVersion v = Except.error msg →
      isOlderOrEqual v w = Except.error msg) ∧
    (∀ v w msg : String, ∀ t : Int × Int × Int,
      splitVersion v = Except.ok t → splitVersion w = Except.error msg →
      isOlderOrEqual v w = Except.error msg) ∧
    isOlderOrEqual "5.5.0" "5.5.3" = Except.ok true ∧
    isOlderOrEqual "5.6.0" "5.5.3" = Except.ok false ∧
    isOlderOrEqual "5.5.3" "5.5.3" = Except.ok true ∧
    isOlderOrEqual "5.5" "5.5.3" = Except.error "invalid version format" ∧
    isOlderOrEqual "5.5.3" "5.5" = Except.error "invalid version format" ∧
    splitVersion "5.5" = Except.error "invalid version format" := by
  refine ⟨?_, ?_, ?_, by decide, by decide, by decide, by decide, by decide, by decide⟩
  · intro v w a b c d e f h1 h2
    rw [isOlderOrEqual_ok v w a b c d e f h1 h2]
    constructor
    · exact ⟨_, rfl⟩
    · simp
  · intro v w msg h
    exact isOlderOrEqual_err_left v w msg h
  · intro v w msg t h1 h2
    exact isOlderOrEqual_err_right v w msg t h1 h2

/-- Witness for C5: the universal parts applied at concrete versions. -/
theorem isOlderOrEqual_spec_witness :
    ((∃ t, isOlderOrEqual "5.5.0" "5.5.3" = Except.ok t) ∧
     (isOlderOrEqual "5.5.0" "5.5.3" = Except.ok true ↔
       ((5 : Int) < 5 ∨ ((5 : Int) = 5 ∧ ((5 : Int) < 5 ∨ ((5 : Int) = 5 ∧ (0 : Int) ≤ 3)))))) ∧
    isOlderOrEqual "5.5" "5.5.3" = Except.error "invalid version format" ∧
    isOlderOrEqual "5.5.3" "5.5" = Except.error "invalid version format" :=
  ⟨isOlderOrEqual_spec.1 "5.5.0" "5.5.3" 5 5 0 5 5 3 (by decide) (by decide),
   isOlderOrEqual_spec.2.1 "5.5" "5.5.3" "invalid version format" (by decide),
   isOlderOrEqual_spec.2.2.1 "5.5.3" "5.5" "invalid version format" (5, 5, 3)
     (by decide) (by decide)⟩

/-- C3: the classifier is total, each record falls in exactly one class,
characterized by the two predicates, and the mobile predicate strictly
takes priority over the desktop predicate when both hold. -/
theorem classify_total_and_mobile_first (pd : Props) :
    (classify pd = ClientClass.Mobile ∨ classify pd = ClientClass.Desktop ∨
      classify pd = ClientClass.Unclassified) ∧
    (classify pd = ClientClass.Mobile ↔ mobilePred pd = true) ∧
    (classify pd = ClientClass.Desktop ↔
      (mobilePred pd = false ∧ desktopPred pd = true)) ∧
    (classify pd = ClientClass.Unclassified ↔
      (mobilePred pd = false ∧ desktopPred pd = false)) ∧
    (mobilePred pd = true → desktopPred pd = true →
      classify pd = ClientClass.Mobile) ∧
    (mobilePred pd =
      (pd.IsMobile == "true" || pd.DeviceID != "" ||
        pd.OS == "Android" || pd.OS == "iOS")) ∧
    (desktopPred pd = containsSubstr pd.Browser "Desktop App") := by
  refine ⟨?_, ?_, ?_, ?_, ?_, rfl, rfl⟩ <;>
    · unfold classify
      cases hm : mobilePred pd <;> cases hd : desktopPred pd <;> simp

/-- Witness for C3: a record matching both predicates is classified
Mobile. -/
theorem classify_total_and_mobile_first_witness :
    classify
      { Browser := "Mattermost Desktop App/5.5.0", OS := "iOS",
        IsMobile := "true", DeviceID := "id1" } = ClientClass.Mobile :=
  (classify_total_and_mobile_first _).2.2.2.2.1 (by decide) (by decide)


theorem processRow_mobile_two_segments (dm : Bool) (st : ProcState) (r : Row) (pd0 : Props)
    (hdec : r.decoded = some pd0)
    (hm : mobilePred (overrideDevice pd0 r.deviceID) = true)
    (a v : String)
    (hsplit : goSplit (overrideDevice pd0 r.deviceID).Browser '/' = [a, v]) :
    (processRow dm st r).mobile =
      vcAppend st.mobile ((goSplit v '+').headD "")
        { OS := (overrideDevice pd0 r.deviceID).OS, Count := 1 } ∧
    (processRow dm st r).desktop = st.desktop ∧
    ((goSplit v '+').headD "" = "0.0" →
      (processRow dm st r).log = st.log ++
        [(warningLevel, "Unrecognised entry - Device ID: " ++ r.deviceID ++
          ", JSON Session: " ++ r.props)]) ∧
    ((goSplit v '+').headD "" ≠ "0.0" → (processRow dm st r).log = st.log) := by
  by_cases hz : ((goSplit v '+').head?.getD "") = "0.0" <;>
    simp [processRow, hdec, hm, hsplit, hz]

theorem processRow_mobile_bad_split (dm : Bool) (st : ProcState) (r : Row) (pd0 : Props)
    (hdec : r.decoded = some pd0)
    (hm : mobilePred (overrideDevice pd0 r.deviceID) = true)
    (hlen : (goSplit (overrideDevice pd0 r.deviceID).Browser '/').length ≠ 2) :
    processRow dm st r = st := by
  simp [processRow, hdec, hm, hlen]

theorem processRow_desktop_two_segments (dm : Bool) (st : ProcState) (r : Row) (pd0 : Props)
    (hdec : r.decoded = some pd0)
    (hm : mobilePred (overrideDevice pd0 r.deviceID) = false)
    (hd : desktopPred (overrideDevice pd0 r.deviceID) = true)
    (a v : String)
    (hsplit : goSplit (overrideDevice pd0 r.deviceID).Browser '/' = [a, v]) :
    (v = "0.0" →
      (processRow dm st r).desktop = st.desktop ∧
      (processRow dm st r).mobile = st.mobile) ∧
    (v ≠ "0.0" →
      (processRow dm st r).desktop =
        vcAppend st.desktop v { OS := (overrideDevice pd0 r.deviceID).OS, Count := 1 } ∧
      (processRow dm st r).mobile = st.mobile ∧
      (processRow dm st r).log = st.log) := by
  by_cases hz : v = "0.0" <;> cases dm <;>
    simp [processRow, hdec, hm, hd, hsplit, hz]

/-- C1 counterexample: a record classified Mobile whose browser has three
slash segments.  The claim as stated says the extractor takes the
segment after the last slash (here the segment extra) and aggregates it;
the code requires exactly two segments and aggregates nothing for this
record. -/
theorem mobile_last_segment_claim_fails :
    (mobileThreeSegRow.decoded.map
      (fun pd => classify (overrideDevice pd mobileThreeSegRow.deviceID))) =
        some ClientClass.Mobile ∧
    (goSplit "Mattermost/5.2.1/extra" '/').getLast? = some "extra" ∧
    (processDatabase false [mobileThreeSegRow]).2.1 = [] ∧
    (processDatabase false [mobileThreeSegRow]).1 = [] := by
  decide

/-- C1 amended: for mobile records whose browser splits into exactly two
slash segments, the second segment is truncated at the first plus sign
and aggregated, with 0.0 still aggregated after a warning naming the
device id and the raw JSON; mobile records with any other segment count
are skipped entirely. -/
theorem mobile_version_extraction_amended (dm : Bool) (st : ProcState) (r : Row)
    (pd0 : Props)
    (hdec : r.decoded = some pd0)
    (hm : mobilePred (overrideDevice pd0 r.deviceID) = true) :
    (∀ a v, goSplit (overrideDevice pd0 r.deviceID).Browser '/' = [a, v] →
      ((processRow dm st r).mobile =
        vcAppend st.mobile ((goSplit v '+').headD "")
          { OS := (overrideDevice pd0 r.deviceID).OS, Count := 1 } ∧
       (processRow dm st r).desktop = st.desktop ∧
       ((goSplit v '+').headD "" = "0.0" →
         (processRow dm st r).log = st.log ++
           [(warningLevel, "Unrecognised entry - Device ID: " ++ r.deviceID ++
             ", JSON Session: " ++ r.props)]) ∧
       ((goSplit v '+').headD "" ≠ "0.0" → (processRow dm st r).log = st.log))) ∧
    ((goSplit (overrideDevice pd0 r.deviceID).Browser '/').length ≠ 2 →
      processRow dm st r = st) :=
  ⟨fun a v hsplit => processRow_mobile_two_segments dm st r pd0 hdec hm a v hsplit,
   fun hlen => processRow_mobile_bad_split dm st r pd0 hdec hm hlen⟩

/-- Witness for the amended C1: the mobile 0.0 record is aggregated and
the warning carries its device id and raw JSON. -/
theorem mobile_version_extraction_amended_witness :
    (processRow false emptyState mobileZeroRow).mobile =
      vcAppend emptyState.mobile ((goSplit "0.0" '+').headD "")
        { OS := "iOS", Count := 1 } ∧
    (processRow false emptyState mobileZeroRow).log = emptyState.log ++
      [(warningLevel, "Unrecognised entry - Device ID: dev9, JSON Session: RAWJSONZERO")] := by
  have h := (mobile_version_extraction_amended false emptyState mobileZeroRow
    { Browser := "Mobile App/0.0", OS := "iOS", IsMobile := "true", DeviceID := "dev9" }
    rfl (by decide)).1 "Mobile App" "0.0" (by decide)
  exact ⟨h.1, h.2.2.1 (by decide)⟩


/-- C4: for a desktop-classified record whose browser splits into
exactly two slash segments, the second segment is the version; the 0.0
version contributes no aggregate entry, unlike the mobile class, which
aggregates 0.0 (final closed conjunct). -/
theorem desktop_version_extraction (dm : Bool) (st : ProcState) (r : Row)
    (pd0 : Props)
    (hdec : r.decoded = some pd0)
    (hm : mobilePred (overrideDevice pd0 r.deviceID) = false)
    (hd : desktopPred (overrideDevice pd0 r.deviceID) = true)
    (a v : String)
    (hsplit : goSplit (overrideDevice pd0 r.deviceID).Browser '/' = [a, v]) :
    (v = "0.0" →
      (processRow dm st r).desktop = st.desktop ∧
      (processRow dm st r).mobile = st.mobile) ∧
    (v ≠ "0.0" →
      (processRow dm st r).desktop =
        vcAppend st.desktop v { OS := (overrideDevice pd0 r.deviceID).OS, Count := 1 } ∧
      (processRow dm st r).mobile = st.mobile ∧
      (processRow dm st r).log = st.log) ∧
    (processDatabase false [mobileZeroRow]).2.1 =
      [("0.0", [{ OS := "iOS", Count := 1 }])] := by
  refine ⟨?_, ?_, by decide⟩
  · exact (processRow_desktop_two_segments dm st r pd0 hdec hm hd a v hsplit).1
  · exact (processRow_desktop_two_segments dm st r pd0 hdec hm hd a v hsplit).2

/-- Witness for C4: a desktop record at version 5.5.0 is aggregated
under the second slash segment, and a 0.0 desktop record is skipped. -/
theorem desktop_version_extraction_witness :
    (processRow false emptyState desktopRow550).desktop =
      vcAppend emptyState.desktop "5.5.0" { OS := "Windows", Count := 1 } ∧
    (processRow false emptyState desktopRow550).mobile = emptyState.mobile := by
  have h := (desktop_version_extraction false emptyState desktopRow550
    { Browser := "Mattermost Desktop App/5.5.0", OS := "Windows",
      IsMobile := "", DeviceID := "" }
    rfl (by decide) (by decide) "Mattermost Desktop App" "5.5.0" (by decide)).2.1
      (by decide)
  exact ⟨h.1, h.2.1⟩

/-- C9 counterexample: two desktop records whose versions differ only by
a plus-delimited build suffix land under different VersionKeys, and the
final key keeps the plus character, refuting the claim for the desktop
class. -/
theorem build_suffix_changes_desktop_key :
    (desktopPlusRow.decoded.map
      (fun pd => classify (overrideDevice pd desktopPlusRow.deviceID))) =
        some ClientClass.Desktop ∧
    (processDatabase false [desktopPlusRow]).1 =
      [("5.5.1+build7", [{ OS := "Windows", Count := 1 }])] ∧
    (processDatabase false [desktopPlainRow]).1 =
      [("5.5.1", [{ OS := "Windows", Count := 1 }])] ∧
    ("5.5.1+build7" = "5.5.1" → False) ∧
    ('+' ∈ "5.5.1+build7".data) := by
  decide

/-- C9 amended: for records classified Mobile (with a two-segment
browser), appending a plus-delimited build suffix to the version leaves
the VersionKey unchanged, and the key contains no plus character.  The
desktop class keeps the suffix, per the counterexample. -/
theorem mobile_build_suffix_invariant (dm : Bool) (st1 st2 : ProcState)
    (r1 r2 : Row) (pd1 pd2 : Props)
    (h1 : r1.decoded = some pd1) (h2 : r2.decoded = some pd2)
    (hm1 : mobilePred (overrideDevice pd1 r1.deviceID) = true)
    (hm2 : mobilePred (overrideDevice pd2 r2.deviceID) = true)
    (a1 a2 v1 v2 : String) (tail : List Char)
    (hs1 : goSplit (overrideDevice pd1 r1.deviceID).Browser '/' = [a1, v1])
    (hs2 : goSplit (overrideDevice pd2 r2.deviceID).Browser '/' = [a2, v2])
    (hplus : '+' ∉ v1.data)
    (hsuffix : v2.data = v1.data ++ '+' :: tail) :
    (processRow dm st1 r1).mobile =
      vcAppend st1.mobile v1 { OS := (overrideDevice pd1 r1.deviceID).OS, Count := 1 } ∧
    (processRow dm st2 r2).mobile =
      vcAppend st2.mobile v1 { OS := (overrideDevice pd2 r2.deviceID).OS, Count := 1 } ∧
    '+' ∉ v1.data := by
  have k1 : (goSplit v1 '+').headD "" = v1 := by
    unfold goSplit
    rw [splitChar_not_mem '+' v1.data hplus]
    simp
  have k2 : (goSplit v2 '+').headD "" = v1 := by
    unfold goSplit
    rw [show v2.data = v1.data ++ '+' :: tail from hsuffix,
      splitChar_append '+' v1.data tail hplus]
    simp
  refine ⟨?_, ?_, hplus⟩
  · have h := (processRow_mobile_two_segments dm st1 r1 pd1 h1 hm1 a1 v1 hs1).1
    rwa [k1] at h
  · have h := (processRow_mobile_two_segments dm st2 r2 pd2 h2 hm2 a2 v2 hs2).1
    rwa [k2] at h

/-- Witness for the amended C9: a mobile record at 2.19.0+codepush3 and
one at 2.19.0 both aggregate under the key 2.19.0. -/
theorem mobile_build_suffix_invariant_witness :
    (processRow false emptyState mobilePlainRow).mobile =
      vcAppend emptyState.mobile "2.19.0" { OS := "Android", Count := 1 } ∧
    (processRow false emptyState mobilePlusRow).mobile =
      vcAppend emptyState.mobile "2.19.0" { OS := "iOS", Count := 1 } ∧
    '+' ∉ "2.19.0".data := by
  have h := mobile_build_suffix_invariant false emptyState emptyState
    mobilePlainRow mobilePlusRow
    { Browser := "Mattermost Mobile/2.19.0", OS := "Android",
      IsMobile := "true", DeviceID := "devB" }
    { Browser := "Mattermost Mobile/2.19.0+codepush3", OS := "iOS",
      IsMobile := "true", DeviceID := "devA" }
    rfl rfl (by decide) (by decide)
    "Mattermost Mobile" "Mattermost Mobile" "2.19.0" "2.19.0+codepush3"
    "codepush3".data (by decide) (by decide) (by decide) (by decide)
  exact h

/-- C6: in lookup mode, a desktop session whose two-segment version is
not 0.0 but fails to parse in the comparison is included fail-open, with
a warning naming the version. -/
theorem lookup_parse_failure_fail_open (dm : Bool) (lv : String) (r : Row)
    (pd0 : Props)
    (hdec : r.decoded = some pd0)
    (hm : mobilePred (overrideDevice pd0 r.deviceID) = false)
    (hd : desktopPred (overrideDevice pd0 r.deviceID) = true)
    (a v : String)
    (hsplit : goSplit (overrideDevice pd0 r.deviceID).Browser '/' = [a, v])
    (hz : v ≠ "0.0")
    (msg : String)
    (herr : isOlderOrEqual v lv = Except.error msg) :
    doLookupRow dm lv r =
      { processRow := true, version := v,
        log := [(warningLevel, "Unable to parse version string: " ++ v)] } := by
  simp [doLookupRow, hdec, hm, hd, hsplit, hz, herr]

/-- Witness for C6: a desktop session at version 5.5 is included with a
warning when compared against 5.5.3. -/
theorem lookup_parse_failure_fail_open_witness :
    doLookupRow false "5.5.3" desktopRowTwoComp =
      { processRow := true, version := "5.5",
        log := [(warningLevel, "Unable to parse version string: 5.5")] } :=
  lookup_parse_failure_fail_open false "5.5.3" desktopRowTwoComp
    { Browser := "Mattermost Desktop App/5.5", OS := "Windows",
      IsMobile := "", DeviceID := "" }
    rfl (by decide) (by decide) "Mattermost Desktop App" "5.5" (by decide)
    (by decide) "invalid version format" (by decide)

/-- C10: in lookup mode, a session whose browser contains Desktop App
but does not split into exactly two slash segments produces no output
row and no log record at all; the comparison is never consulted. -/
theorem lookup_malformed_desktop_silent (dm : Bool) (lv : String) (r : Row)
    (pd0 : Props)
    (hdec : r.decoded = some pd0)
    (hm : mobilePred (overrideDevice pd0 r.deviceID) = false)
    (hd : desktopPred (overrideDevice pd0 r.deviceID) = true)
    (hlen : (goSplit (overrideDevice pd0 r.deviceID).Browser '/').length ≠ 2) :
    doLookupRow dm lv r = { processRow := false, version := "", log := [] } := by
  simp [doLookupRow, hdec, hm, hd, hlen]

/-- Witness for C10: a desktop-marked browser with no slash is silently
excluded. -/
theorem lookup_malformed_desktop_silent_witness :
    doLookupRow false "5.5.3" desktopRowNoSlash =
      { processRow := false, version := "", log := [] } :=
  lookup_malformed_desktop_silent false "5.5.3" desktopRowNoSlash
    { Browser := "Mattermost Desktop App 5.5.0", OS := "Windows",
      IsMobile := "", DeviceID := "" }
    rfl (by decide) (by decide) (by decide)


theorem processRow_decode_failure (dm : Bool) (st : ProcState) (r : Row)
    (h : r.decoded = none) :
    processRow dm st r =
      { st with log := st.log ++ [(warningLevel, "Error unmarshalling JSON")] } := by
  simp [processRow, h]

theorem processRow_counts_congr (dm : Bool) (r : Row) (st1 st2 : ProcState)
    (hd : st1.desktop = st2.desktop) (hm : st1.mobile = st2.mobile) :
    (processRow dm st1 r).desktop = (processRow dm st2 r).desktop ∧
    (processRow dm st1 r).mobile = (processRow dm st2 r).mobile := by
  unfold processRow
  cases hdec : r.decoded with
  | none => simp [hd, hm]
  | some pd0 =>
    dsimp only
    split_ifs <;> simp_all

theorem processRow_log_extends (dm : Bool) (st : ProcState) (r : Row) :
    ∃ t, (processRow dm st r).log = st.log ++ t := by
  unfold processRow
  cases hdec : r.decoded with
  | none => exact ⟨_, rfl⟩
  | some pd0 =>
    dsimp only
    split_ifs <;>
      first
        | exact ⟨[], (List.append_nil _).symm⟩
        | exact ⟨_, rfl⟩

theorem processRows_counts_congr (dm : Bool) (rows : List Row) :
    ∀ st1 st2 : ProcState, st1.desktop = st2.desktop → st1.mobile = st2.mobile →
      (processRows dm st1 rows).desktop = (processRows dm st2 rows).desktop ∧
      (processRows dm st1 rows).mobile = (processRows dm st2 rows).mobile := by
  induction rows with
  | nil =>
    intro st1 st2 hd hm
    exact ⟨hd, hm⟩
  | cons r rest ih =>
    intro st1 st2 hd hm
    have h := processRow_counts_congr dm r st1 st2 hd hm
    simpa only [processRows, List.foldl_cons] using
      ih (processRow dm st1 r) (processRow dm st2 r) h.1 h.2

theorem processRows_log_extends (dm : Bool) (rows : List Row) :
    ∀ st : ProcState, ∃ t, (processRows dm st rows).log = st.log ++ t := by
  induction rows with
  | nil =>
    intro st
    exact ⟨[], (List.append_nil _).symm⟩
  | cons r rest ih =>
    intro st
    obtain ⟨t1, h1⟩ := processRow_log_extends dm st r
    obtain ⟨t2, h2⟩ := ih (processRow dm st r)
    refine ⟨t1 ++ t2, ?_⟩
    simp only [processRows, List.foldl_cons] at h2 ⊢
    rw [h2, h1, List.append_assoc]

/-- C7: one undecodable row among others is skipped with a warning and
the final aggregates equal those of the stream without it. -/
theorem decode_failure_is_nonfatal (dm : Bool) (xs ys : List Row) (b : Row)
    (hb : b.decoded = none) :
    (processDatabase dm (xs ++ b :: ys)).1 = (processDatabase dm (xs ++ ys)).1 ∧
    (processDatabase dm (xs ++ b :: ys)).2.1 = (processDatabase dm (xs ++ ys)).2.1 ∧
    (warningLevel, "Error unmarshalling JSON") ∈ (processDatabase dm (xs ++ b :: ys)).2.2 := by
  have e1 : processRows dm emptyState (xs ++ b :: ys) =
      processRows dm (processRow dm (processRows dm emptyState xs) b) ys := by
    simp only [processRows, List.foldl_append, List.foldl_cons]
  have e2 : processRows dm emptyState (xs ++ ys) =
      processRows dm (processRows dm emptyState xs) ys := by
    simp only [processRows, List.foldl_append]
  have e3 := processRow_decode_failure dm (processRows dm emptyState xs) b hb
  have e4 := processRows_counts_congr dm ys
    (processRow dm (processRows dm emptyState xs) b)
    (processRows dm emptyState xs)
    (by rw [e3]) (by rw [e3])
  refine ⟨?_, ?_, ?_⟩
  · show aggregateCounts (processRows dm emptyState (xs ++ b :: ys)).desktop =
      aggregateCounts (processRows dm emptyState (xs ++ ys)).desktop
    rw [e1, e2, e4.1]
  · show aggregateCounts (processRows dm emptyState (xs ++ b :: ys)).mobile =
      aggregateCounts (processRows dm emptyState (xs ++ ys)).mobile
    rw [e1, e2, e4.2]
  · show (warningLevel, "Error unmarshalling JSON") ∈
      (processRows dm emptyState (xs ++ b :: ys)).log
    rw [e1]
    obtain ⟨t, ht⟩ := processRows_log_extends dm ys
      (processRow dm (processRows dm emptyState xs) b)
    rw [ht, e3]
    apply List.mem_append_left
    apply List.mem_append_right
    simp

/-- Witness for C7: adding a malformed row after one valid row leaves
the aggregates unchanged and records the warning. -/
theorem decode_failure_is_nonfatal_witness :
    (processDatabase false [desktopRow550, malformedRow]).1 =
      (processDatabase false [desktopRow550]).1 ∧
    (processDatabase false [desktopRow550, malformedRow]).2.1 =
      (processDatabase false [desktopRow550]).2.1 ∧
    (warningLevel, "Error unmarshalling JSON") ∈
      (processDatabase false [desktopRow550, malformedRow]).2.2 := by
  have h := decode_failure_is_nonfatal false [desktopRow550] [] malformedRow rfl
  simpa using h


theorem bumpOS_fst (m : List (String × Nat)) (os : String) (cnt : Nat) :
    (bumpOS m os cnt).map Prod.fst =
      if os ∈ m.map Prod.fst then m.map Prod.fst
      else m.map Prod.fst ++ [os] := by
  induction m with
  | nil => simp [bumpOS]
  | cons e rest ih =>
    by_cases h : e.1 = os
    · simp [bumpOS, h]
    · simp only [bumpOS, List.map_cons]
      rw [if_neg (by simp [h])]
      simp only [List.map_cons, ih]
      by_cases h2 : os ∈ rest.map Prod.fst
      · simp [h2, Ne.symm h]
      · simp [h2, Ne.symm h]

theorem bumpOS_fst_nodup (m : List (String × Nat)) (os : String) (cnt : Nat)
    (h : (m.map Prod.fst).Nodup) : ((bumpOS m os cnt).map Prod.fst).Nodup := by
  rw [bumpOS_fst]
  by_cases h2 : os ∈ m.map Prod.fst
  · simpa [h2]
  · simp [h2, List.nodup_append, h]

theorem bumpOS_snd_sum (m : List (String × Nat)) (os : String) (cnt : Nat) :
    ((bumpOS m os cnt).map Prod.snd).sum = (m.map Prod.snd).sum + cnt := by
  induction m with
  | nil => simp [bumpOS]
  | cons e rest ih =>
    by_cases h : e.1 = os <;> simp [bumpOS, h, ih] <;> omega

theorem foldl_bumpOS_nodup (infos : List VersionInfo) :
    ∀ m0 : List (String × Nat), (m0.map Prod.fst).Nodup →
      ((infos.foldl (fun m i => bumpOS m i.OS i.Count) m0).map Prod.fst).Nodup := by
  induction infos with
  | nil =>
    intro m0 h
    simpa
  | cons i rest ih =>
    intro m0 h
    simpa only [List.foldl_cons] using ih _ (bumpOS_fst_nodup m0 i.OS i.Count h)

theorem foldl_bumpOS_sum (infos : List VersionInfo) :
    ∀ m0 : List (String × Nat),
      ((infos.foldl (fun m i => bumpOS m i.OS i.Count) m0).map Prod.snd).sum =
        (m0.map Prod.snd).sum + (infos.map VersionInfo.Count).sum := by
  induction infos with
  | nil =>
    intro m0
    simp
  | cons i rest ih =>
    intro m0
    simp only [List.foldl_cons, List.map_cons, List.sum_cons, ih, bumpOS_snd_sum]
    omega

theorem consolidateOS_os_nodup (infos : List VersionInfo) :
    ((consolidateOS infos).map VersionInfo.OS).Nodup := by
  unfold consolidateOS
  have h := foldl_bumpOS_nodup infos [] (by simp)
  simpa [List.map_map, Function.comp] using h

theorem consolidateOS_sum (infos : List VersionInfo) :
    ((consolidateOS infos).map VersionInfo.Count).sum =
      (infos.map VersionInfo.Count).sum := by
  unfold consolidateOS
  have h := foldl_bumpOS_sum infos []
  simpa [List.map_map, Function.comp] using h

theorem mem_vcSet {m : VersionCount} {k : String} {v : List VersionInfo}
    {kv : String × List VersionInfo}
    (h : kv ∈ vcSet m k v) : kv = (k, v) ∨ kv ∈ m := by
  induction m with
  | nil =>
    simp [vcSet] at h
    exact Or.inl h
  | cons e rest ih =>
    rw [vcSet] at h
    split_ifs at h with he
    · rcases List.mem_cons.mp h with h1 | h1
      · exact Or.inl h1
      · exact Or.inr (List.mem_cons_of_mem e h1)
    · rcases List.mem_cons.mp h with h1 | h1
      · exact Or.inr (by simp [h1])
      · rcases ih h1 with h2 | h2
        · exact Or.inl h2
        · exact Or.inr (List.mem_cons_of_mem e h2)

theorem vcGet_subset {m : VersionCount} {k : String} {i : VersionInfo}
    (h : i ∈ vcGet m k) : ∃ kv ∈ m, i ∈ kv.2 := by
  unfold vcGet at h
  cases hf : m.find? (fun e => e.1 == k) with
  | none =>
    rw [hf] at h
    simp at h
  | some e =>
    rw [hf] at h
    exact ⟨e, List.mem_of_find?_eq_some hf, h⟩

theorem allOnes_vcAppend {m : VersionCount} (h : allOnes m) (k os : String) :
    allOnes (vcAppend m k { OS := os, Count := 1 }) := by
  intro kv hkv i hi
  rcases mem_vcSet hkv with h1 | h1
  · subst h1
    rcases List.mem_append.mp hi with h2 | h2
    · obtain ⟨kv2, hkv2, hikv2⟩ := vcGet_subset h2
      exact h kv2 hkv2 i hikv2
    · simp at h2
      simp [h2]
  · exact h kv h1 i hi

theorem processRow_allOnes (dm : Bool) (st : ProcState) (r : Row)
    (hd : allOnes st.desktop) (hm : allOnes st.mobile) :
    allOnes (processRow dm st r).desktop ∧ allOnes (processRow dm st r).mobile := by
  unfold processRow
  cases hdec : r.decoded with
  | none => exact ⟨hd, hm⟩
  | some pd0 =>
    dsimp only
    split_ifs <;>
      first
        | exact ⟨hd, hm⟩
        | exact ⟨hd, allOnes_vcAppend hm _ _⟩
        | exact ⟨allOnes_vcAppend hd _ _, hm⟩

theorem processRows_allOnes (dm : Bool) (rows : List Row) :
    ∀ st : ProcState, allOnes st.desktop → allOnes st.mobile →
      allOnes (processRows dm st rows).desktop ∧
      allOnes (processRows dm st rows).mobile := by
  induction rows with
  | nil =>
    intro st h1 h2
    exact ⟨h1, h2⟩
  | cons r rest ih =>
    intro st h1 h2
    have h := processRow_allOnes dm st r h1 h2
    simpa only [processRows, List.foldl_cons] using
      ih (processRow dm st r) h.1 h.2

theorem sum_counts_eq_length {l : List VersionInfo} (h : ∀ i ∈ l, i.Count = 1) :
    (l.map VersionInfo.Count).sum = l.length := by
  induction l with
  | nil => simp
  | cons i rest ih =>
    have h1 := h i (List.mem_cons_self i rest)
    have h2 := ih (fun j hj => h j (List.mem_cons_of_mem i hj))
    simp [h1, h2]
    omega

/-- C8: in the consolidated output, every VersionKey carries at most one
entry per OS, and for each provisional (key, slice) pair the
consolidated counts for that key sum to the number of raw unit events
under it, which also names its consolidated entry in the output map. -/
theorem aggregate_consolidation_invariant (dm : Bool) (rows : List Row) :
    (∀ kv ∈ (processDatabase dm rows).1, (kv.2.map VersionInfo.OS).Nodup) ∧
    (∀ kv ∈ (processDatabase dm rows).2.1, (kv.2.map VersionInfo.OS).Nodup) ∧
    (∀ kv ∈ (processRows dm emptyState rows).desktop,
      ((consolidateOS kv.2).map VersionInfo.Count).sum = kv.2.length ∧
      (kv.1, consolidateOS kv.2) ∈ (processDatabase dm rows).1) ∧
    (∀ kv ∈ (processRows dm emptyState rows).mobile,
      ((consolidateOS kv.2).map VersionInfo.Count).sum = kv.2.length ∧
      (kv.1, consolidateOS kv.2) ∈ (processDatabase dm rows).2.1) := by
  have hall := processRows_allOnes dm rows emptyState
    (by intro kv h; simp [emptyState] at h)
    (by intro kv h; simp [emptyState] at h)
  refine ⟨?_, ?_, ?_, ?_⟩
  · intro kv hkv
    obtain ⟨e, he, heq⟩ := List.mem_map.mp hkv
    rw [← heq]
    exact consolidateOS_os_nodup e.2
  · intro kv hkv
    obtain ⟨e, he, heq⟩ := List.mem_map.mp hkv
    rw [← heq]
    exact consolidateOS_os_nodup e.2
  · intro kv hkv
    refine ⟨?_, ?_⟩
    · rw [consolidateOS_sum]
      exact sum_counts_eq_length (hall.1 kv hkv)
    · exact List.mem_map.mpr ⟨kv, hkv, rfl⟩
  · intro kv hkv
    refine ⟨?_, ?_⟩
    · rw [consolidateOS_sum]
      exact sum_counts_eq_length (hall.2 kv hkv)
    · exact List.mem_map.mpr ⟨kv, hkv, rfl⟩

/-- Witness for C8: two unit events under the same key and OS sum to a
single consolidated entry of count two. -/
theorem aggregate_consolidation_invariant_witness :
    ((consolidateOS [{ OS := "Windows", Count := 1 }, { OS := "Windows", Count := 1 }]).map
      VersionInfo.Count).sum = 2 ∧
    ("5.5.0", consolidateOS [{ OS := "Windows", Count := 1 }, { OS := "Windows", Count := 1 }]) ∈
      (processDatabase false [desktopRow550, desktopRow550]).1 := by
  have h := (aggregate_consolidation_invariant false [desktopRow550, desktopRow550]).2.2.1
    ("5.5.0", [{ OS := "Windows", Count := 1 }, { OS := "Windows", Count := 1 }])
    (by decide)
  exact ⟨h.1, h.2⟩

end MMDV
